import Mathlib

/-!
# csv2bean: bank / brokerage CSV rows to Beancount entries

A shallow embedding of the two programs of the repository,
`csv2Bean.go` (cash pipeline, namespace `Csv2Bean`) and `csv2inv.go`
(investment pipeline, namespace `Csv2Inv`).

Modelling decisions

* Go strings are `String`; the byte-level library functions
  (`strings.Contains`, `strings.Replace`) are modelled on the list of
  characters, which agrees with the byte-level behaviour on valid UTF-8.
* `float64` values are exact rationals (`ℚ`): the properties below are
  stated under exact arithmetic; rounding, infinities and NaN are not modelled.
* `time.Parse` and `strconv.ParseFloat` are library functions: they are
  parameters of the readers (`Lib`).  A concrete decimal instance
  (`parseDecimal`, `isoLib`) is used for the worked examples.
* The CSV decoder is not modelled: a file is its list of records.  As with
  `csv.Reader` and `FieldsPerRecord = 0`, a record whose field count differs
  from the first record's makes `Read` return an error.
* File output is modelled by the values handed to `fmt.Fprintf`: one `Entry`
  per transaction with its posting lines in output order.
* A Go run-time panic (index out of range) is an explicit outcome.
-/

set_option autoImplicit false

/-! ## Library functions -/

/-- Model of `strings.HasPrefix` on character lists. -/
def hasPrefix : List Char → List Char → Bool
  | _, [] => true
  | [], _ :: _ => false
  | c :: cs, p :: ps => c == p && hasPrefix cs ps

/-- Model of `strings.Contains` on character lists: `substr` occurs in `s`
at some position. -/
def containsChars : List Char → List Char → Bool
  | [], substr => hasPrefix [] substr
  | c :: cs, substr => hasPrefix (c :: cs) substr || containsChars cs substr

/-- Model of `strings.Contains(s, substr)`. -/
def stringsContains (s substr : String) : Bool :=
  containsChars s.data substr.data

/-- Model of `strings.Replace(s, old, new, 1)` on character lists: the
first occurrence of `old` is replaced by `new`; an empty `old` matches at the
start of the string. -/
def replaceFirstChars (old new : List Char) : List Char → List Char
  | [] => if hasPrefix [] old then new else []
  | c :: cs =>
    if hasPrefix (c :: cs) old then new ++ (c :: cs).drop old.length
    else c :: replaceFirstChars old new cs

/-- Model of `strings.Replace(s, old, new, 1)`. -/
def stringsReplace1 (s old new : String) : String :=
  String.mk (replaceFirstChars old.data new.data s.data)

/-- A `time.Time` value, by its calendar date (the only part the programs
print, with the layout `2006-01-02`). -/
structure Time where
  year : Nat
  month : Nat
  day : Nat
  deriving DecidableEq, Repr

/-- The two library parsers the readers call: `time.Parse(layout, value)` and
`strconv.ParseFloat(s, 64)`; `none` is a returned error. -/
structure Lib where
  timeParse : String → String → Option Time
  parseFloat : String → Option ℚ

/-- The five-line sequence applied to every numeric field in both
`readTransactions`: `strings.Replace(raw, "$", "0", 1)`, then
`strings.Replace(_, ",", "", 1)`, then `"0"` for the empty string, then
`strconv.ParseFloat`. -/
def normalizeNumber (lib : Lib) (raw : String) : Option ℚ :=
  let s := stringsReplace1 raw "$" "0"
  let s := stringsReplace1 s "," ""
  let s := if s = "" then "0" else s
  lib.parseFloat s

/-- The `fmt.Errorf` sites of the two `readTransactions`, and the error of the
first `reader.Read`. -/
inductive ReadError where
  | header
  | schema
  | date
  | amount
  | price
  | commission
  | fee
  deriving DecidableEq, Repr

/-- What a reader does: it returns a value with a nil error, returns nil with
an error, or the run panics. -/
inductive Outcome (α : Type) where
  | ok (v : α)
  | error (e : ReadError)
  | panicked
  deriving DecidableEq, Repr

/-- Sequencing of outcomes: an error or a panic ends the function. -/
def Outcome.andThen {α β : Type} (o : Outcome α) (f : α → Outcome β) : Outcome β :=
  match o with
  | .ok v => f v
  | .error e => .error e
  | .panicked => .panicked

/-- The Go index expression `row[i]` for an `int` index: out of range panics. -/
def index (row : List String) (i : Int) : Outcome String :=
  if 0 ≤ i then
    match row[i.toNat]? with
    | some v => .ok v
    | none => .panicked
  else .panicked

/-- The `if err != nil` test following a library call, `e` the error returned. -/
def orError {α : Type} (o : Option α) (e : ReadError) : Outcome α :=
  match o with
  | some v => .ok v
  | none => .error e

/-! ## Output model -/

/-- One posting line of the output, by the values handed to `fmt.Fprintf`.
`plain` is the format `"  %-40s\t%.2f  %s"`, `lot` is the format
`"  %s%-15s\t%.3f  %s  {%.4f  %s}"` whose account is the account prefix
followed by the symbol. -/
inductive Posting where
  | plain (account : String) (amount : ℚ) (currency : String)
  | lot (account : String) (quantity : ℚ) (symbol : String) (price : ℚ) (currency : String)
  deriving DecidableEq, Repr

/-- One output record: the line `DATE * "NARRATION"` and its posting lines. -/
structure Entry where
  date : Time
  narration : String
  postings : List Posting
  deriving DecidableEq, Repr

namespace Csv2Bean

/-- The `Transaction` struct of `csv2Bean.go`. -/
structure Transaction where
  date : Time
  description : String
  symbol : String
  price : ℚ
  commission : ℚ
  fee : ℚ
  amount : ℚ
  deriving DecidableEq, Repr

/-- The `Match` struct of `csv2Bean.go`. -/
structure Match where
  account2 : String
  contains : String
  deriving DecidableEq, Repr

/-- The rule loop of `writeBeancount` (`for _, m := range matches` with its
`break`): `account2` is the value of the variable before the loop.  The local
`test` of the source is never read and is left out. -/
def findAccount2 (description : String) : List Match → String → String
  | [], account2 => account2
  | m :: ms, account2 =>
    if stringsContains description m.contains then m.account2
    else findAccount2 description ms account2

/-- The body of the transaction loop of `writeBeancount`: the entry written
for one transaction. -/
def entryOf (rules : List Match) (account1 currency : String) (reverse : Bool)
    (t : Transaction) : Entry :=
  let amount := if reverse then -t.amount else t.amount
  let amount2 := -amount
  let account2 := findAccount2 t.description rules "Expenses:Unassigned"
  { date := t.date
    narration := t.description
    postings := [Posting.plain account1 amount currency,
                 Posting.plain account2 amount2 currency] }

/-- Model of `writeBeancount`: `rules` is the result of `readMatches`, the
value is the sequence of entries written to the output file. -/
def writeBeancount (rules : List Match) (transactions : List Transaction)
    (account1 currency : String) (reverse : Bool) : List Entry :=
  transactions.map (entryOf rules account1 currency reverse)

/-- The column indexes `readTransactions` looks up in the header row. -/
structure Indexes where
  dateIndex : Int
  descriptionIndex : Int
  amountIndex : Int
  symbolIndex : Int
  priceIndex : Int
  commissionIndex : Int
  feeIndex : Int
  deriving DecidableEq, Repr

/-- The `switch col` of the header loop, `i` the position of `col`. -/
def scanStep (ix : Indexes) (i : Int) (col : String) : Indexes :=
  if col = "date" then { ix with dateIndex := i }
  else if col = "description" then { ix with descriptionIndex := i }
  else if col = "amount" then { ix with amountIndex := i }
  else if col = "symbol" then { ix with symbolIndex := i }
  else if col = "price" then { ix with priceIndex := i }
  else if col = "commission" then { ix with commissionIndex := i }
  else if col = "fee" then { ix with feeIndex := i }
  else ix

/-- The loop `for i, col := range header`, from position `i` on. -/
def scanHeader : List String → Int → Indexes → Indexes
  | [], _, ix => ix
  | col :: rest, i, ix => scanHeader rest (i + 1) (scanStep ix i col)

/-- The body of the row loop of `readTransactions` after a successful
`reader.Read`: the transaction built from one record. -/
def parseRow (lib : Lib) (dateFormat : String) (ix : Indexes) (row : List String) :
    Outcome Transaction :=
  (index row ix.dateIndex).andThen fun rawDate =>
  (orError (lib.timeParse dateFormat rawDate) .date).andThen fun date =>
  (index row ix.amountIndex).andThen fun rawAmount =>
  (orError (normalizeNumber lib rawAmount) .amount).andThen fun amount =>
  (index row ix.priceIndex).andThen fun rawPrice =>
  (orError (normalizeNumber lib rawPrice) .price).andThen fun price =>
  (index row ix.commissionIndex).andThen fun rawCommission =>
  (orError (normalizeNumber lib rawCommission) .commission).andThen fun commission =>
  (index row ix.feeIndex).andThen fun rawFee =>
  (orError (normalizeNumber lib rawFee) .fee).andThen fun fee =>
  (index row ix.descriptionIndex).andThen fun description =>
  (index row ix.symbolIndex).andThen fun symbol =>
  .ok { date := date, description := description, symbol := symbol, price := price,
        commission := commission, fee := fee, amount := amount }

/-- The row loop of `readTransactions`: `nFields` is the field count of the
header record, `transactions` the slice built so far.  A record of another
field count is a `reader.Read` error, which ends the loop like end of file. -/
def readRows (lib : Lib) (dateFormat : String) (ix : Indexes) (nFields : Nat) :
    List (List String) → List Transaction → Outcome (List Transaction)
  | [], transactions => .ok transactions
  | row :: rest, transactions =>
    if row.length ≠ nFields then .ok transactions
    else
      match parseRow lib dateFormat ix row with
      | .ok t => readRows lib dateFormat ix nFields rest (transactions ++ [t])
      | .error e => .error e
      | .panicked => .panicked

/-- Model of `readTransactions` of `csv2Bean.go` on the records of the
transactions file (header record first). -/
def readTransactions (lib : Lib) (dateFormat : String) :
    List (List String) → Outcome (List Transaction)
  | [] => .error .header
  | header :: rows =>
    let ix := scanHeader header 0 ⟨-1, -1, -1, -1, -1, -1, -1⟩
    if ix.dateIndex = -1 ∨ ix.descriptionIndex = -1 ∨ ix.amountIndex = -1
        ∨ ix.symbolIndex = -1 ∨ ix.priceIndex = -1 ∨ ix.commissionIndex = -1
        ∨ ix.feeIndex = -1 then
      .error .schema
    else readRows lib dateFormat ix header.length rows []

end Csv2Bean

namespace Csv2Inv

/-- The `Transaction` struct of `csv2inv.go`. -/
structure Transaction where
  date : Time
  description : String
  symbol : String
  quantity : ℚ
  price : ℚ
  commission : ℚ
  fee : ℚ
  amount : ℚ
  deriving DecidableEq, Repr

/-- The `Match` struct of `csv2inv.go`. -/
structure Match where
  fromAccount : String
  toAccount : String
  trade : String
  contains : String
  deriving DecidableEq, Repr

/-- The three variables the rule loop of `writeBeancount` assigns. -/
structure Resolved where
  fromAccount : String
  toAccount : String
  trade : String
  deriving DecidableEq, Repr

/-- The rule loop of `writeBeancount` (`for _, m := range matches` with its
`break`): `r` holds the values of the three variables before the loop. -/
def findMatch (description : String) : List Match → Resolved → Resolved
  | [], r => r
  | m :: ms, r =>
    if stringsContains description m.contains then
      { fromAccount := m.fromAccount, toAccount := m.toAccount, trade := m.trade }
    else findMatch description ms r

/-- The posting lines written for one transaction once the rule loop has
run: the `if trade == "BUY"`, `else if trade == "SELL"`, `else` of
`writeBeancount`, with `fromAmount` and `toAmount` as set before the loop. -/
def entryFor (r : Resolved) (currency : String) (reverse : Bool) (t : Transaction) : Entry :=
  let fromAmount := if reverse then -t.amount else t.amount
  let toAmount := if reverse then -(-t.amount) else -t.amount
  if r.trade = "BUY" then
    let fromAmount := t.price * t.quantity
    { date := t.date
      narration := t.description
      postings := [Posting.plain r.fromAccount (-fromAmount) currency,
                   Posting.lot (r.toAccount ++ t.symbol) t.quantity t.symbol t.price currency] }
  else if r.trade = "SELL" then
    let toAmount := t.price * t.quantity
    { date := t.date
      narration := t.description
      postings := [Posting.lot (r.fromAccount ++ t.symbol) t.quantity t.symbol t.price currency,
                   Posting.plain r.toAccount (-toAmount) currency] }
  else
    { date := t.date
      narration := t.description
      postings := [Posting.plain r.fromAccount fromAmount currency,
                   Posting.plain r.toAccount toAmount currency] }

/-- The body of the transaction loop of `writeBeancount`: the entry written
for one transaction. -/
def entryOf (rules : List Match) (currency defaultAccount : String) (reverse : Bool)
    (t : Transaction) : Entry :=
  entryFor
    (findMatch t.description rules
      { fromAccount := defaultAccount, toAccount := "Expenses:Unassigned", trade := "" })
    currency reverse t

/-- Model of `writeBeancount`: `rules` is the result of `readMatches`, the
value is the sequence of entries written to the output file. -/
def writeBeancount (rules : List Match) (transactions : List Transaction)
    (currency defaultAccount : String) (reverse : Bool) : List Entry :=
  transactions.map (entryOf rules currency defaultAccount reverse)

/-- The column indexes `readTransactions` looks up in the header row. -/
structure Indexes where
  dateIndex : Int
  descriptionIndex : Int
  symbolIndex : Int
  quantityIndex : Int
  priceIndex : Int
  commissionIndex : Int
  feeIndex : Int
  amountIndex : Int
  deriving DecidableEq, Repr

/-- The `switch col` of the header loop, `i` the position of `col`. -/
def scanStep (ix : Indexes) (i : Int) (col : String) : Indexes :=
  if col = "date" then { ix with dateIndex := i }
  else if col = "description" then { ix with descriptionIndex := i }
  else if col = "symbol" then { ix with symbolIndex := i }
  else if col = "quantity" then { ix with quantityIndex := i }
  else if col = "price" then { ix with priceIndex := i }
  else if col = "commission" then { ix with commissionIndex := i }
  else if col = "fee" then { ix with feeIndex := i }
  else if col = "amount" then { ix with amountIndex := i }
  else ix

/-- The loop `for i, col := range header`, from position `i` on. -/
def scanHeader : List String → Int → Indexes → Indexes
  | [], _, ix => ix
  | col :: rest, i, ix => scanHeader rest (i + 1) (scanStep ix i col)

/-- The body of the row loop of `readTransactions` after a successful
`reader.Read`: the transaction built from one record.  A quantity that does
not parse is reported with the message of the price. -/
def parseRow (lib : Lib) (dateFormat : String) (ix : Indexes) (row : List String) :
    Outcome Transaction :=
  (index row ix.dateIndex).andThen fun rawDate =>
  (orError (lib.timeParse dateFormat rawDate) .date).andThen fun date =>
  (index row ix.amountIndex).andThen fun rawAmount =>
  (orError (normalizeNumber lib rawAmount) .amount).andThen fun amount =>
  (index row ix.quantityIndex).andThen fun rawQuantity =>
  (orError (normalizeNumber lib rawQuantity) .price).andThen fun quantity =>
  (index row ix.priceIndex).andThen fun rawPrice =>
  (orError (normalizeNumber lib rawPrice) .price).andThen fun price =>
  (index row ix.commissionIndex).andThen fun rawCommission =>
  (orError (normalizeNumber lib rawCommission) .commission).andThen fun commission =>
  (index row ix.feeIndex).andThen fun rawFee =>
  (orError (normalizeNumber lib rawFee) .fee).andThen fun fee =>
  (index row ix.descriptionIndex).andThen fun description =>
  (index row ix.symbolIndex).andThen fun symbol =>
  .ok { date := date, description := description, symbol := symbol, quantity := quantity,
        price := price, commission := commission, fee := fee, amount := amount }

/-- The row loop of `readTransactions`: `nFields` is the field count of the
header record, `transactions` the slice built so far.  A record of another
field count is a `reader.Read` error, which ends the loop like end of file. -/
def readRows (lib : Lib) (dateFormat : String) (ix : Indexes) (nFields : Nat) :
    List (List String) → List Transaction → Outcome (List Transaction)
  | [], transactions => .ok transactions
  | row :: rest, transactions =>
    if row.length ≠ nFields then .ok transactions
    else
      match parseRow lib dateFormat ix row with
      | .ok t => readRows lib dateFormat ix nFields rest (transactions ++ [t])
      | .error e => .error e
      | .panicked => .panicked

/-- Model of `readTransactions` of `csv2inv.go` on the records of the
transactions file (header record first).  The test after the header loop is
the source's: it does not mention `quantityIndex`. -/
def readTransactions (lib : Lib) (dateFormat : String) :
    List (List String) → Outcome (List Transaction)
  | [] => .error .header
  | header :: rows =>
    let ix := scanHeader header 0 ⟨-1, -1, -1, -1, -1, -1, -1, -1⟩
    if ix.dateIndex = -1 ∨ ix.descriptionIndex = -1 ∨ ix.amountIndex = -1
        ∨ ix.symbolIndex = -1 ∨ ix.priceIndex = -1 ∨ ix.commissionIndex = -1
        ∨ ix.feeIndex = -1 then
      .error .schema
    else readRows lib dateFormat ix header.length rows []

end Csv2Inv

/-! ## A concrete instance of the library parsers

The instance covers a fragment of the library functions, enough for the
worked examples: plain decimal literals (sign, digits, one optional point)
with their exact value, and dates in the layout `2006-01-02`. -/

/-- Value of a decimal digit. -/
def digitValue (c : Char) : Option Nat :=
  if c.isDigit then some (c.toNat - 48) else none

/-- Value of a string of decimal digits, `acc` the value of the digits read
so far; `none` when a character is not a digit. -/
def readDigits : List Char → Nat → Option Nat
  | [], acc => some acc
  | c :: cs, acc =>
    match digitValue c with
    | some d => readDigits cs (10 * acc + d)
    | none => none

/-- Value of an unsigned decimal literal: digits with at most one point and
at least one digit. -/
def parseUnsigned (cs : List Char) : Option ℚ :=
  let whole := cs.takeWhile (fun c => c != '.')
  let fraction := (cs.dropWhile (fun c => c != '.')).drop 1
  if whole.length + fraction.length = 0 then none
  else
    match readDigits whole 0, readDigits fraction 0 with
    | some a, some b => some ((a : ℚ) + (b : ℚ) / 10 ^ fraction.length)
    | _, _ => none

/-- Model of `strconv.ParseFloat(s, 64)` on plain decimal literals, with the
exact value of the literal. -/
def parseDecimal (s : String) : Option ℚ :=
  match s.data with
  | '-' :: cs => (parseUnsigned cs).map fun q => -q
  | '+' :: cs => parseUnsigned cs
  | cs => parseUnsigned cs

/-- Number of days of a month of the Gregorian calendar. -/
def daysIn (year month : Nat) : Nat :=
  if month = 2 then
    if year % 4 = 0 ∧ (year % 100 ≠ 0 ∨ year % 400 = 0) then 29 else 28
  else if month = 4 ∨ month = 6 ∨ month = 9 ∨ month = 11 then 30
  else 31

/-- Model of `time.Parse("2006-01-02", value)`. -/
def isoDate (value : String) : Option Time :=
  match value.data with
  | [y1, y2, y3, y4, '-', m1, m2, '-', d1, d2] =>
    match readDigits [y1, y2, y3, y4] 0, readDigits [m1, m2] 0, readDigits [d1, d2] 0 with
    | some y, some m, some d =>
      if 1 ≤ m ∧ m ≤ 12 ∧ 1 ≤ d ∧ d ≤ daysIn y m then some ⟨y, m, d⟩ else none
    | _, _, _ => none
  | _ => none

/-- The library instance of the worked examples. -/
def isoLib : Lib where
  timeParse := fun layout value => if layout = "2006-01-02" then isoDate value else none
  parseFloat := parseDecimal

/-! ## Definitions that follow the specification's wording -/

/-- The string `sub` is a literal substring of `s`: `s` is some text, then
`sub`, then some text. -/
def IsSubstring (sub s : String) : Prop :=
  ∃ before after : List Char, s.data = before ++ sub.data ++ after

/-- The first occurrence of the character `c` replaced by `d`. -/
def replaceFirstChar (c d : Char) : List Char → List Char
  | [] => []
  | x :: xs => if x = c then d :: xs else x :: replaceFirstChar c d xs

/-- The string the specification's normaliser parses: the first `$` removed,
the first `,` removed, `"0"` if nothing is left. -/
def strippedField (raw : String) : String :=
  let t := (raw.data.erase '$').erase ','
  if t = [] then "0" else String.mk t

/-- The string the normaliser of the source parses: the first `$` replaced by
the digit `0`, the first `,` removed, `"0"` if nothing is left. -/
def zeroedField (raw : String) : String :=
  let t := (replaceFirstChar '$' '0' raw.data).erase ','
  if t = [] then "0" else String.mk t

/-- The position the header loop leaves in an index variable: the position of
the last column named `name` from position `i` on, `cur` if there is none. -/
def lastIndexFrom (name : String) : List String → Int → Int → Int
  | [], _, cur => cur
  | col :: rest, i, cur => lastIndexFrom name rest (i + 1) (if col = name then i else cur)

namespace Csv2Bean

/-- A choice of one column position per field of the cash schema. -/
structure Columns where
  date : Nat
  description : Nat
  symbol : Nat
  price : Nat
  commission : Nat
  fee : Nat
  amount : Nat

/-- Each chosen column is a column of the header that carries the name of its
field. -/
def Columns.Named (c : Columns) (header : List String) : Prop :=
  header[c.date]? = some "date" ∧ header[c.description]? = some "description"
  ∧ header[c.symbol]? = some "symbol" ∧ header[c.price]? = some "price"
  ∧ header[c.commission]? = some "commission" ∧ header[c.fee]? = some "fee"
  ∧ header[c.amount]? = some "amount"

/-- The transaction the specification describes for a data row: each field
is taken from its column, the date parsed under the configured format and the
numeric fields normalised; `none` when the date or a numeric field does not
parse. -/
def rowTransaction (lib : Lib) (dateFormat : String) (c : Columns) (row : List String) :
    Option Transaction :=
  (row[c.date]?.bind (lib.timeParse dateFormat)).bind fun date =>
  (row[c.amount]?.bind (normalizeNumber lib)).bind fun amount =>
  (row[c.price]?.bind (normalizeNumber lib)).bind fun price =>
  (row[c.commission]?.bind (normalizeNumber lib)).bind fun commission =>
  (row[c.fee]?.bind (normalizeNumber lib)).bind fun fee =>
  row[c.description]?.bind fun description =>
  row[c.symbol]?.bind fun symbol =>
  some { date := date, description := description, symbol := symbol, price := price,
         commission := commission, fee := fee, amount := amount }

/-- A data row fails: its date does not parse under the configured format, or
one of its numeric fields fails normalisation. -/
def RowFails (lib : Lib) (dateFormat : String) (c : Columns) (row : List String) : Prop :=
  row[c.date]?.bind (lib.timeParse dateFormat) = none
  ∨ row[c.amount]?.bind (normalizeNumber lib) = none
  ∨ row[c.price]?.bind (normalizeNumber lib) = none
  ∨ row[c.commission]?.bind (normalizeNumber lib) = none
  ∨ row[c.fee]?.bind (normalizeNumber lib) = none

end Csv2Bean

namespace Csv2Inv

/-- A choice of one column position per field of the investment schema. -/
structure Columns where
  date : Nat
  description : Nat
  symbol : Nat
  quantity : Nat
  price : Nat
  commission : Nat
  fee : Nat
  amount : Nat

/-- Each chosen column is a column of the header that carries the name of its
field. -/
def Columns.Named (c : Columns) (header : List String) : Prop :=
  header[c.date]? = some "date" ∧ header[c.description]? = some "description"
  ∧ header[c.symbol]? = some "symbol" ∧ header[c.quantity]? = some "quantity"
  ∧ header[c.price]? = some "price" ∧ header[c.commission]? = some "commission"
  ∧ header[c.fee]? = some "fee" ∧ header[c.amount]? = some "amount"

/-- The transaction the specification describes for a data row: each field
is taken from its column, the date parsed under the configured format and the
numeric fields normalised; `none` when the date or a numeric field does not
parse. -/
def rowTransaction (lib : Lib) (dateFormat : String) (c : Columns) (row : List String) :
    Option Transaction :=
  (row[c.date]?.bind (lib.timeParse dateFormat)).bind fun date =>
  (row[c.amount]?.bind (normalizeNumber lib)).bind fun amount =>
  (row[c.quantity]?.bind (normalizeNumber lib)).bind fun quantity =>
  (row[c.price]?.bind (normalizeNumber lib)).bind fun price =>
  (row[c.commission]?.bind (normalizeNumber lib)).bind fun commission =>
  (row[c.fee]?.bind (normalizeNumber lib)).bind fun fee =>
  row[c.description]?.bind fun description =>
  row[c.symbol]?.bind fun symbol =>
  some { date := date, description := description, symbol := symbol, quantity := quantity,
         price := price, commission := commission, fee := fee, amount := amount }

/-- A data row fails: its date does not parse under the configured format, or
one of its numeric fields fails normalisation. -/
def RowFails (lib : Lib) (dateFormat : String) (c : Columns) (row : List String) : Prop :=
  row[c.date]?.bind (lib.timeParse dateFormat) = none
  ∨ row[c.amount]?.bind (normalizeNumber lib) = none
  ∨ row[c.quantity]?.bind (normalizeNumber lib) = none
  ∨ row[c.price]?.bind (normalizeNumber lib) = none
  ∨ row[c.commission]?.bind (normalizeNumber lib) = none
  ∨ row[c.fee]?.bind (normalizeNumber lib) = none

end Csv2Inv

/-! ## Lemmas on the library functions -/

theorem hasPrefix_iff (s p : List Char) : hasPrefix s p = true ↔ ∃ rest, s = p ++ rest := by
  induction p generalizing s with
  | nil => cases s <;> simp [hasPrefix]
  | cons x xs ih =>
    cases s with
    | nil => simp [hasPrefix]
    | cons c cs =>
      simp only [hasPrefix, Bool.and_eq_true, beq_iff_eq, ih, List.cons_append, List.cons.injEq]
      constructor
      · rintro ⟨rfl, rest, rfl⟩
        exact ⟨rest, rfl, rfl⟩
      · rintro ⟨rest, rfl, rfl⟩
        exact ⟨rfl, rest, rfl⟩

theorem containsChars_iff (s sub : List Char) :
    containsChars s sub = true ↔ ∃ before after, s = before ++ sub ++ after := by
  induction s with
  | nil =>
    simp only [containsChars, hasPrefix_iff]
    constructor
    · rintro ⟨rest, h⟩
      exact ⟨[], rest, by simpa using h⟩
    · rintro ⟨before, after, h⟩
      have h1 : before = [] ∧ sub = [] ∧ after = [] := by
        simpa [List.append_eq_nil, and_assoc] using h.symm
      exact ⟨[], by simp [h1.2.1]⟩
  | cons c cs ih =>
    simp only [containsChars, Bool.or_eq_true, hasPrefix_iff, ih]
    constructor
    · rintro (⟨rest, h⟩ | ⟨before, after, h⟩)
      · exact ⟨[], rest, by simpa using h⟩
      · exact ⟨c :: before, after, by simp [h]⟩
    · rintro ⟨before, after, h⟩
      cases before with
      | nil => exact Or.inl ⟨after, by simpa using h⟩
      | cons b bs =>
        simp only [List.cons_append, List.cons.injEq] at h
        exact Or.inr ⟨bs, after, h.2⟩

theorem stringsContains_iff (s sub : String) :
    stringsContains s sub = true ↔ IsSubstring sub s := by
  simp [stringsContains, IsSubstring, containsChars_iff]

/-! ## Rule resolution -/

theorem findAccount2_first (d : String) (rules : List Csv2Bean.Match) (init : String)
    (i : Nat) (hi : i < rules.length) (hmatch : IsSubstring rules[i].contains d)
    (hfirst : ∀ (j : Nat) (hj : j < rules.length), j < i → ¬ IsSubstring rules[j].contains d) :
    Csv2Bean.findAccount2 d rules init = rules[i].account2 := by
  induction rules generalizing i with
  | nil => simp at hi
  | cons m ms ih =>
    cases i with
    | zero =>
      have h : stringsContains d m.contains = true := (stringsContains_iff _ _).2 hmatch
      simp [Csv2Bean.findAccount2, h]
    | succ k =>
      have h0 : ¬ stringsContains d m.contains = true := fun h =>
        hfirst 0 (by simp) (by omega) ((stringsContains_iff _ _).1 h)
      simp only [Csv2Bean.findAccount2, h0, if_false, List.getElem_cons_succ]
      exact ih k (by simpa using hi) hmatch
        (fun j hj hjk => hfirst (j + 1) (by simpa using hj) (by omega))

theorem findAccount2_none (d : String) (rules : List Csv2Bean.Match) (init : String)
    (hnone : ∀ m ∈ rules, ¬ IsSubstring m.contains d) :
    Csv2Bean.findAccount2 d rules init = init := by
  induction rules with
  | nil => rfl
  | cons m ms ih =>
    have h0 : ¬ stringsContains d m.contains = true := fun h =>
      hnone m (by simp) ((stringsContains_iff _ _).1 h)
    simp only [Csv2Bean.findAccount2, h0, if_false]
    exact ih (fun m' hm' => hnone m' (by simp [hm']))

theorem findMatch_first (d : String) (rules : List Csv2Inv.Match) (init : Csv2Inv.Resolved)
    (i : Nat) (hi : i < rules.length) (hmatch : IsSubstring rules[i].contains d)
    (hfirst : ∀ (j : Nat) (hj : j < rules.length), j < i → ¬ IsSubstring rules[j].contains d) :
    Csv2Inv.findMatch d rules init =
      { fromAccount := rules[i].fromAccount, toAccount := rules[i].toAccount,
        trade := rules[i].trade } := by
  induction rules generalizing i with
  | nil => simp at hi
  | cons m ms ih =>
    cases i with
    | zero =>
      have h : stringsContains d m.contains = true := (stringsContains_iff _ _).2 hmatch
      simp [Csv2Inv.findMatch, h]
    | succ k =>
      have h0 : ¬ stringsContains d m.contains = true := fun h =>
        hfirst 0 (by simp) (by omega) ((stringsContains_iff _ _).1 h)
      simp only [Csv2Inv.findMatch, h0, if_false, List.getElem_cons_succ]
      exact ih k (by simpa using hi) hmatch
        (fun j hj hjk => hfirst (j + 1) (by simpa using hj) (by omega))

theorem findMatch_none (d : String) (rules : List Csv2Inv.Match) (init : Csv2Inv.Resolved)
    (hnone : ∀ m ∈ rules, ¬ IsSubstring m.contains d) :
    Csv2Inv.findMatch d rules init = init := by
  induction rules with
  | nil => rfl
  | cons m ms ih =>
    have h0 : ¬ stringsContains d m.contains = true := fun h =>
      hnone m (by simp) ((stringsContains_iff _ _).1 h)
    simp only [Csv2Inv.findMatch, h0, if_false]
    exact ih (fun m' hm' => hnone m' (by simp [hm']))

/-! ## Entry generation -/

/-- C1. Cash pipeline: the entries written are, in order, one per
transaction, with its date and description; each has exactly two postings,
both plain and in the configured currency, the first to the primary account;
the second amount is the negation of the first, so the two amounts sum to
zero. -/
theorem C1_cash_entry_balanced (rules : List Csv2Bean.Match)
    (transactions : List Csv2Bean.Transaction) (account1 currency : String) (reverse : Bool) :
    List.Forall₂
      (fun (t : Csv2Bean.Transaction) (e : Entry) =>
        ∃ (account2 : String) (a1 a2 : ℚ),
          e.postings = [Posting.plain account1 a1 currency, Posting.plain account2 a2 currency]
          ∧ e.postings.length = 2 ∧ a2 = -a1 ∧ a1 + a2 = 0
          ∧ e.date = t.date ∧ e.narration = t.description)
      transactions (Csv2Bean.writeBeancount rules transactions account1 currency reverse) := by
  induction transactions with
  | nil => exact List.Forall₂.nil
  | cons t ts ih =>
    refine List.Forall₂.cons ?_ ih
    exact ⟨Csv2Bean.findAccount2 t.description rules "Expenses:Unassigned",
      if reverse then -t.amount else t.amount, -(if reverse then -t.amount else t.amount),
      rfl, rfl, rfl, by ring, rfl, rfl⟩

/-- C2. Rule resolution is first match in file order, else default.  Cash:
when rule `i` is the earliest whose contains-string is a literal substring of
the description, the counter-posting goes to that rule's account; when no rule
matches it goes to `Expenses:Unassigned`.  Investment: the entry is the one
generated from the from-account, to-account and trade type of the earliest
matching rule; when no rule matches, from the default account,
`Expenses:Unassigned` and the empty trade type. -/
theorem C2_first_match_else_default
    (cashRules : List Csv2Bean.Match) (account1 currency : String) (reverse : Bool)
    (t : Csv2Bean.Transaction)
    (invRules : List Csv2Inv.Match) (defaultAccount : String) (u : Csv2Inv.Transaction) :
    (∀ (i : Nat) (hi : i < cashRules.length),
        IsSubstring cashRules[i].contains t.description →
        (∀ (j : Nat) (hj : j < cashRules.length), j < i →
          ¬ IsSubstring cashRules[j].contains t.description) →
        (Csv2Bean.entryOf cashRules account1 currency reverse t).postings =
          [Posting.plain account1 (if reverse then -t.amount else t.amount) currency,
           Posting.plain cashRules[i].account2 (-(if reverse then -t.amount else t.amount))
             currency])
    ∧ ((∀ m ∈ cashRules, ¬ IsSubstring m.contains t.description) →
        (Csv2Bean.entryOf cashRules account1 currency reverse t).postings =
          [Posting.plain account1 (if reverse then -t.amount else t.amount) currency,
           Posting.plain "Expenses:Unassigned" (-(if reverse then -t.amount else t.amount))
             currency])
    ∧ (∀ (i : Nat) (hi : i < invRules.length),
        IsSubstring invRules[i].contains u.description →
        (∀ (j : Nat) (hj : j < invRules.length), j < i →
          ¬ IsSubstring invRules[j].contains u.description) →
        Csv2Inv.entryOf invRules currency defaultAccount reverse u =
          Csv2Inv.entryFor
            { fromAccount := invRules[i].fromAccount, toAccount := invRules[i].toAccount,
              trade := invRules[i].trade } currency reverse u)
    ∧ ((∀ m ∈ invRules, ¬ IsSubstring m.contains u.description) →
        Csv2Inv.entryOf invRules currency defaultAccount reverse u =
          Csv2Inv.entryFor
            { fromAccount := defaultAccount, toAccount := "Expenses:Unassigned", trade := "" }
            currency reverse u) := by
  refine ⟨?_, ?_, ?_, ?_⟩
  · intro i hi hmatch hfirst
    simp only [Csv2Bean.entryOf, findAccount2_first t.description cashRules _ i hi hmatch hfirst]
  · intro hnone
    simp only [Csv2Bean.entryOf, findAccount2_none t.description cashRules _ hnone]
  · intro i hi hmatch hfirst
    simp only [Csv2Inv.entryOf, findMatch_first u.description invRules _ i hi hmatch hfirst]
  · intro hnone
    simp only [Csv2Inv.entryOf, findMatch_none u.description invRules _ hnone]

/-- Witness of C2: two cash rules and two investment rules that both match
`COFFEE SHOP`; the earlier one decides. -/
theorem C2_first_match_else_default_witness :
    (Csv2Bean.entryOf
        [⟨"Expenses:Dining", "COFFEE"⟩, ⟨"Expenses:Shopping", "SHOP"⟩]
        "Assets:Checking" "USD" false
        ⟨⟨2024, 1, 15⟩, "COFFEE SHOP", "", 0, 0, 0, -9 / 2⟩).postings =
      [Posting.plain "Assets:Checking" (-9 / 2) "USD",
       Posting.plain "Expenses:Dining" (-(-9 / 2)) "USD"]
    ∧ Csv2Inv.entryOf
        [⟨"Assets:Cash", "Expenses:Dining", "", "COFFEE"⟩,
         ⟨"Assets:Cash", "Expenses:Shopping", "BUY", "SHOP"⟩]
        "USD" "Assets:Default" false
        ⟨⟨2024, 1, 15⟩, "COFFEE SHOP", "", 0, 0, 0, 0, -9 / 2⟩ =
      Csv2Inv.entryFor ⟨"Assets:Cash", "Expenses:Dining", ""⟩ "USD" false
        ⟨⟨2024, 1, 15⟩, "COFFEE SHOP", "", 0, 0, 0, 0, -9 / 2⟩ := by
  have h := C2_first_match_else_default
    [⟨"Expenses:Dining", "COFFEE"⟩, ⟨"Expenses:Shopping", "SHOP"⟩]
    "Assets:Checking" "USD" false ⟨⟨2024, 1, 15⟩, "COFFEE SHOP", "", 0, 0, 0, -9 / 2⟩
    [⟨"Assets:Cash", "Expenses:Dining", "", "COFFEE"⟩,
     ⟨"Assets:Cash", "Expenses:Shopping", "BUY", "SHOP"⟩]
    "Assets:Default" ⟨⟨2024, 1, 15⟩, "COFFEE SHOP", "", 0, 0, 0, 0, -9 / 2⟩
  refine ⟨?_, ?_⟩
  · have h1 := h.1 0 (by decide) ⟨[], " SHOP".data, by decide⟩
      (fun j _ hj => absurd hj (Nat.not_lt_zero j))
    simpa using h1
  · exact h.2.2.1 0 (by decide) ⟨[], " SHOP".data, by decide⟩
      (fun j _ hj => absurd hj (Nat.not_lt_zero j))

/-- C3. Investment pipeline, BUY: when the earliest matching rule has trade
type `BUY`, the entry is the cash leg to the rule's from-account with amount
`-(price * quantity)` followed by the asset leg to the to-account
concatenated with the symbol, carrying the input quantity of the symbol at
cost `{price, currency}`; the transaction's own amount plays no part. -/
theorem C3_buy_entry (rules : List Csv2Inv.Match) (currency defaultAccount : String)
    (reverse : Bool) (t : Csv2Inv.Transaction) (i : Nat) (hi : i < rules.length)
    (hmatch : IsSubstring rules[i].contains t.description)
    (hfirst : ∀ (j : Nat) (hj : j < rules.length), j < i →
      ¬ IsSubstring rules[j].contains t.description)
    (hbuy : rules[i].trade = "BUY") :
    Csv2Inv.entryOf rules currency defaultAccount reverse t =
      { date := t.date
        narration := t.description
        postings :=
          [Posting.plain rules[i].fromAccount (-(t.price * t.quantity)) currency,
           Posting.lot (rules[i].toAccount ++ t.symbol) t.quantity t.symbol t.price currency] }
    ∧ ∀ amount : ℚ,
        Csv2Inv.entryOf rules currency defaultAccount reverse { t with amount := amount } =
          Csv2Inv.entryOf rules currency defaultAccount reverse t := by
  have hr := findMatch_first t.description rules
    { fromAccount := defaultAccount, toAccount := "Expenses:Unassigned", trade := "" }
    i hi hmatch hfirst
  constructor
  · simp only [Csv2Inv.entryOf, hr, Csv2Inv.entryFor, hbuy, if_true]
  · intro amount
    simp only [Csv2Inv.entryOf, hr, Csv2Inv.entryFor, hbuy, if_true]

/-- Witness of C3, the BUY scenario of the specification: symbol ABC,
quantity 10, price 5.00 under the rule (Assets:Cash, Assets:Investments:, BUY,
BUY ABC) gives `Assets:Cash -50 USD` and `Assets:Investments:ABC 10 ABC
{5 USD}`, whatever the amount field. -/
theorem C3_buy_entry_witness :
    Csv2Inv.entryOf [⟨"Assets:Cash", "Assets:Investments:", "BUY", "BUY ABC"⟩]
        "USD" "Assets:Default" false
        ⟨⟨2024, 1, 15⟩, "YOU BOUGHT: BUY ABC", "ABC", 10, 5, 0, 0, -7⟩ =
      { date := ⟨2024, 1, 15⟩
        narration := "YOU BOUGHT: BUY ABC"
        postings := [Posting.plain "Assets:Cash" (-50) "USD",
                     Posting.lot "Assets:Investments:ABC" 10 "ABC" 5 "USD"] } := by
  have h := (C3_buy_entry [⟨"Assets:Cash", "Assets:Investments:", "BUY", "BUY ABC"⟩]
    "USD" "Assets:Default" false
    ⟨⟨2024, 1, 15⟩, "YOU BOUGHT: BUY ABC", "ABC", 10, 5, 0, 0, -7⟩ 0 (by decide)
    ⟨"YOU BOUGHT: ".data, [], by decide⟩
    (fun j _ hj => absurd hj (Nat.not_lt_zero j)) rfl).1
  rw [h]
  have e1 : (-(5 * 10) : ℚ) = -50 := by norm_num
  have e2 : ("Assets:Investments:" ++ "ABC" : String) = "Assets:Investments:ABC" := by decide
  simp only [List.getElem_cons_zero, e1, e2]

/-- Counterexample to C4 as stated: a SELL of 10 units at price 5 posts the
cash leg `Assets:Cash -50 USD`; no posting of the entry carries the amount
`price * quantity = 50`. -/
theorem C4_sell_cash_leg_counterexample :
    Csv2Inv.entryOf [⟨"Assets:Investments:", "Assets:Cash", "SELL", "SELL ABC"⟩]
        "USD" "Assets:Default" false
        ⟨⟨2024, 1, 15⟩, "SELL ABC", "ABC", 10, 5, 0, 0, 50⟩ =
      { date := ⟨2024, 1, 15⟩
        narration := "SELL ABC"
        postings := [Posting.lot "Assets:Investments:ABC" 10 "ABC" 5 "USD",
                     Posting.plain "Assets:Cash" (-50) "USD"] }
    ∧ Posting.plain "Assets:Cash" (5 * 10) "USD" ∉
        (Csv2Inv.entryOf [⟨"Assets:Investments:", "Assets:Cash", "SELL", "SELL ABC"⟩]
          "USD" "Assets:Default" false
          ⟨⟨2024, 1, 15⟩, "SELL ABC", "ABC", 10, 5, 0, 0, 50⟩).postings := by
  have hc : stringsContains "SELL ABC" "SELL ABC" = true := by decide
  have e2 : ("Assets:Investments:" ++ "ABC" : String) = "Assets:Investments:ABC" := by decide
  have hs : ¬ ("SELL" : String) = "BUY" := by decide
  constructor
  · simp only [Csv2Inv.entryOf, Csv2Inv.findMatch, hc, if_true, Csv2Inv.entryFor, hs, if_false,
      e2]
    norm_num
  · simp only [Csv2Inv.entryOf, Csv2Inv.findMatch, hc, if_true, Csv2Inv.entryFor, hs, if_false,
      e2]
    intro hmem
    simp only [List.mem_cons, List.mem_singleton, Posting.plain.injEq, List.not_mem_nil,
      or_false] at hmem
    rcases hmem with hmem | hmem
    · exact Posting.noConfusion hmem
    · norm_num at hmem

/-- C4, amended. Investment pipeline, SELL: when the earliest matching rule
has trade type `SELL`, the entry is the asset leg to the from-account
concatenated with the symbol, carrying the input quantity of the symbol at
cost `{price, currency}`, followed by the cash leg to the rule's to-account
with amount `-(price * quantity)`; the transaction's own amount plays no
part. -/
theorem C4_sell_entry (rules : List Csv2Inv.Match) (currency defaultAccount : String)
    (reverse : Bool) (t : Csv2Inv.Transaction) (i : Nat) (hi : i < rules.length)
    (hmatch : IsSubstring rules[i].contains t.description)
    (hfirst : ∀ (j : Nat) (hj : j < rules.length), j < i →
      ¬ IsSubstring rules[j].contains t.description)
    (hsell : rules[i].trade = "SELL") :
    Csv2Inv.entryOf rules currency defaultAccount reverse t =
      { date := t.date
        narration := t.description
        postings :=
          [Posting.lot (rules[i].fromAccount ++ t.symbol) t.quantity t.symbol t.price currency,
           Posting.plain rules[i].toAccount (-(t.price * t.quantity)) currency] }
    ∧ ∀ amount : ℚ,
        Csv2Inv.entryOf rules currency defaultAccount reverse { t with amount := amount } =
          Csv2Inv.entryOf rules currency defaultAccount reverse t := by
  have hr := findMatch_first t.description rules
    { fromAccount := defaultAccount, toAccount := "Expenses:Unassigned", trade := "" }
    i hi hmatch hfirst
  have hs : ¬ ("SELL" : String) = "BUY" := by decide
  constructor
  · simp only [Csv2Inv.entryOf, hr, Csv2Inv.entryFor, hsell, hs, if_true, if_false]
  · intro amount
    simp only [Csv2Inv.entryOf, hr, Csv2Inv.entryFor, hsell, hs, if_true, if_false]

/-- Witness of the amended C4: a sale exported with quantity -10 at price 5
gives the asset leg `-10 ABC {5 USD}` and the cash leg `Assets:Cash 50 USD`. -/
theorem C4_sell_entry_witness :
    Csv2Inv.entryOf [⟨"Assets:Investments:", "Assets:Cash", "SELL", "SELL ABC"⟩]
        "USD" "Assets:Default" false
        ⟨⟨2024, 1, 15⟩, "YOU SOLD: SELL ABC", "ABC", -10, 5, 0, 0, 49⟩ =
      { date := ⟨2024, 1, 15⟩
        narration := "YOU SOLD: SELL ABC"
        postings := [Posting.lot "Assets:Investments:ABC" (-10) "ABC" 5 "USD",
                     Posting.plain "Assets:Cash" 50 "USD"] } := by
  have h := (C4_sell_entry [⟨"Assets:Investments:", "Assets:Cash", "SELL", "SELL ABC"⟩]
    "USD" "Assets:Default" false
    ⟨⟨2024, 1, 15⟩, "YOU SOLD: SELL ABC", "ABC", -10, 5, 0, 0, 49⟩ 0 (by decide)
    ⟨"YOU SOLD: ".data, [], by decide⟩
    (fun j _ hj => absurd hj (Nat.not_lt_zero j)) rfl).1
  rw [h]
  have e1 : (-(5 * -10) : ℚ) = 50 := by norm_num
  have e2 : ("Assets:Investments:" ++ "ABC" : String) = "Assets:Investments:ABC" := by decide
  simp only [List.getElem_cons_zero, e1, e2]

/-- Counterexample to C5 as stated: for a BUY of 10 units at price 5 the run
with the reverse flag and the run without it write the same cash leg
`Assets:Cash -50 USD`, which is not its own negation. -/
theorem C5_reverse_buy_counterexample :
    Csv2Inv.entryOf [⟨"Assets:Cash", "Assets:Investments:", "BUY", "BUY ABC"⟩]
        "USD" "Assets:Default" true
        ⟨⟨2024, 1, 15⟩, "BUY ABC", "ABC", 10, 5, 0, 0, -50⟩ =
      { date := ⟨2024, 1, 15⟩
        narration := "BUY ABC"
        postings := [Posting.plain "Assets:Cash" (-50) "USD",
                     Posting.lot "Assets:Investments:ABC" 10 "ABC" 5 "USD"] }
    ∧ Csv2Inv.entryOf [⟨"Assets:Cash", "Assets:Investments:", "BUY", "BUY ABC"⟩]
        "USD" "Assets:Default" false
        ⟨⟨2024, 1, 15⟩, "BUY ABC", "ABC", 10, 5, 0, 0, -50⟩ =
      { date := ⟨2024, 1, 15⟩
        narration := "BUY ABC"
        postings := [Posting.plain "Assets:Cash" (-50) "USD",
                     Posting.lot "Assets:Investments:ABC" 10 "ABC" 5 "USD"] }
    ∧ (-50 : ℚ) ≠ -(-50) := by
  have hc : stringsContains "BUY ABC" "BUY ABC" = true := by decide
  have e2 : ("Assets:Investments:" ++ "ABC" : String) = "Assets:Investments:ABC" := by decide
  refine ⟨?_, ?_, by norm_num⟩
  · simp only [Csv2Inv.entryOf, Csv2Inv.findMatch, hc, if_true, Csv2Inv.entryFor, e2]
    norm_num
  · simp only [Csv2Inv.entryOf, Csv2Inv.findMatch, hc, if_true, Csv2Inv.entryFor, e2]
    norm_num

/-- C5, amended. Reverse flag.  Cash pipeline: the run with the flag writes
the same date, narration and accounts as the run without it, with both posting
amounts negated.  Investment pipeline: the same holds when the resolved trade
type is neither `BUY` nor `SELL`; when it is `BUY` or `SELL` the flag has no
effect and both runs write the same entry. -/
theorem C5_reverse_flag (cashRules : List Csv2Bean.Match) (account1 currency : String)
    (t : Csv2Bean.Transaction)
    (invRules : List Csv2Inv.Match) (defaultAccount : String) (u : Csv2Inv.Transaction) :
    (∃ account2 : String,
        Csv2Bean.entryOf cashRules account1 currency false t =
          { date := t.date, narration := t.description
            postings := [Posting.plain account1 t.amount currency,
                         Posting.plain account2 (-t.amount) currency] }
        ∧ Csv2Bean.entryOf cashRules account1 currency true t =
          { date := t.date, narration := t.description
            postings := [Posting.plain account1 (-t.amount) currency,
                         Posting.plain account2 (-(-t.amount)) currency] })
    ∧ (∃ r : Csv2Inv.Resolved,
        r = Csv2Inv.findMatch u.description invRules
              { fromAccount := defaultAccount, toAccount := "Expenses:Unassigned", trade := "" }
        ∧ (r.trade ≠ "BUY" → r.trade ≠ "SELL" →
            Csv2Inv.entryOf invRules currency defaultAccount false u =
              { date := u.date, narration := u.description
                postings := [Posting.plain r.fromAccount u.amount currency,
                             Posting.plain r.toAccount (-u.amount) currency] }
            ∧ Csv2Inv.entryOf invRules currency defaultAccount true u =
              { date := u.date, narration := u.description
                postings := [Posting.plain r.fromAccount (-u.amount) currency,
                             Posting.plain r.toAccount (-(-u.amount)) currency] })
        ∧ (r.trade = "BUY" ∨ r.trade = "SELL" →
            Csv2Inv.entryOf invRules currency defaultAccount true u =
              Csv2Inv.entryOf invRules currency defaultAccount false u)) := by
  refine ⟨⟨Csv2Bean.findAccount2 t.description cashRules "Expenses:Unassigned", ?_, ?_⟩,
    ⟨_, rfl, ?_, ?_⟩⟩
  · simp [Csv2Bean.entryOf]
  · simp [Csv2Bean.entryOf]
  · intro hb hs
    constructor
    · simp [Csv2Inv.entryOf, Csv2Inv.entryFor, hb, hs]
    · simp [Csv2Inv.entryOf, Csv2Inv.entryFor, hb, hs]
  · intro h
    have hs : ¬ ("SELL" : String) = "BUY" := by decide
    rcases h with h | h
    · simp [Csv2Inv.entryOf, Csv2Inv.entryFor, h]
    · simp [Csv2Inv.entryOf, Csv2Inv.entryFor, h, hs]

/-- Witness of the amended C5: a dividend matched by a rule of empty trade
type; the two runs write the amounts 12, -12 and -12, 12. -/
theorem C5_reverse_flag_witness :
    Csv2Inv.entryOf [⟨"Assets:Cash", "Income:Dividends", "", "DIVIDEND"⟩]
        "USD" "Assets:Default" false
        ⟨⟨2024, 1, 15⟩, "DIVIDEND ABC", "ABC", 0, 0, 0, 0, 12⟩ =
      { date := ⟨2024, 1, 15⟩, narration := "DIVIDEND ABC"
        postings := [Posting.plain "Assets:Cash" 12 "USD",
                     Posting.plain "Income:Dividends" (-12) "USD"] }
    ∧ Csv2Inv.entryOf [⟨"Assets:Cash", "Income:Dividends", "", "DIVIDEND"⟩]
        "USD" "Assets:Default" true
        ⟨⟨2024, 1, 15⟩, "DIVIDEND ABC", "ABC", 0, 0, 0, 0, 12⟩ =
      { date := ⟨2024, 1, 15⟩, narration := "DIVIDEND ABC"
        postings := [Posting.plain "Assets:Cash" (-12) "USD",
                     Posting.plain "Income:Dividends" (-(-12)) "USD"] } := by
  obtain ⟨r, hr, hno, _⟩ := (C5_reverse_flag [] "Assets:Checking" "USD"
    ⟨⟨2024, 1, 15⟩, "DIVIDEND ABC", "", 0, 0, 0, 12⟩
    [⟨"Assets:Cash", "Income:Dividends", "", "DIVIDEND"⟩] "Assets:Default"
    ⟨⟨2024, 1, 15⟩, "DIVIDEND ABC", "ABC", 0, 0, 0, 0, 12⟩).2
  have hc : stringsContains "DIVIDEND ABC" "DIVIDEND" = true := by decide
  have hr2 : r = ⟨"Assets:Cash", "Income:Dividends", ""⟩ := by
    rw [hr]; simp only [Csv2Inv.findMatch, hc, if_true]
  subst hr2
  exact hno (by decide) (by decide)

theorem replaceFirstChars_single (c d : Char) (l : List Char) :
    replaceFirstChars [c] [d] l = replaceFirstChar c d l := by
  induction l with
  | nil => simp [replaceFirstChars, replaceFirstChar, hasPrefix]
  | cons x xs ih => simp [replaceFirstChars, replaceFirstChar, hasPrefix, ih]

theorem replaceFirstChars_erase (c : Char) (l : List Char) :
    replaceFirstChars [c] [] l = l.erase c := by
  induction l with
  | nil => simp [replaceFirstChars, hasPrefix]
  | cons x xs ih => simp [replaceFirstChars, hasPrefix, ih, List.erase_cons]

/-- Counterexample to C7 as stated: on the field `1$5` the source's
normaliser parses `105`, while parsing the field with the `$` removed gives
`15`; on `-$` the source's normaliser succeeds with `-0`, while the field with
the `$` removed, `-`, is not a number. -/
theorem C7_dollar_removed_counterexample :
    normalizeNumber isoLib "1$5" = some 105
    ∧ isoLib.parseFloat (strippedField "1$5") = some 15
    ∧ normalizeNumber isoLib "-$" = some 0
    ∧ isoLib.parseFloat (strippedField "-$") = none := by
  have a1 : stringsReplace1 (stringsReplace1 "1$5" "$" "0") "," "" = "105" := by decide
  have a2 : strippedField "1$5" = "15" := by decide
  have a3 : stringsReplace1 (stringsReplace1 "-$" "$" "0") "," "" = "-0" := by decide
  have a4 : strippedField "-$" = "-" := by decide
  have b1 : ¬ ("105" : String) = "" := by decide
  have b3 : ¬ ("-0" : String) = "" := by decide
  refine ⟨?_, ?_, ?_, ?_⟩
  · simp only [normalizeNumber, a1, b1, if_false]
    simp [isoLib, parseDecimal, parseUnsigned, readDigits, digitValue]
  · rw [a2]
    simp [isoLib, parseDecimal, parseUnsigned, readDigits, digitValue]
  · simp only [normalizeNumber, a3, b3, if_false]
    simp [isoLib, parseDecimal, parseUnsigned, readDigits, digitValue]
  · rw [a4]
    simp [isoLib, parseDecimal, parseUnsigned, readDigits, digitValue]

/-- C7, amended. Numeric field normalisation: for every raw field and every
decimal parser, the normaliser's outcome is the outcome of parsing the string
obtained from the field by replacing the first `$` by the digit `0`, removing
the first `,`, and substituting `"0"` if the result is empty: the same value
when that parse succeeds, a parse failure when it fails. -/
theorem C7_normalize_number (lib : Lib) (raw : String) :
    normalizeNumber lib raw = lib.parseFloat (zeroedField raw) := by
  have h1 : ("$" : String).data = ['$'] := rfl
  have h2 : ("0" : String).data = ['0'] := rfl
  have h3 : (",": String).data = [','] := rfl
  have h4 : ("" : String).data = [] := rfl
  have h5 : ∀ t : List Char, (String.mk t = "") ↔ t = [] := by
    intro t
    constructor
    · intro h
      have := congrArg String.data h
      simpa using this
    · rintro rfl
      rfl
  simp only [normalizeNumber, zeroedField, stringsReplace1, h1, h2, h3, h4,
    replaceFirstChars_single, replaceFirstChars_erase, h5]

/-- C8. Numeric normalisation examples under the decimal parser: the field
`$1,234.56` normalises to 1234.56, the empty field to 0, and the field `-$50`
is accepted and yields -50. -/
theorem C8_normalize_examples :
    normalizeNumber isoLib "$1,234.56" = some (123456 / 100)
    ∧ normalizeNumber isoLib "" = some 0
    ∧ normalizeNumber isoLib "-$50" = some (-50) := by
  have a1 : stringsReplace1 (stringsReplace1 "$1,234.56" "$" "0") "," "" = "01234.56" := by
    decide
  have a2 : stringsReplace1 (stringsReplace1 "" "$" "0") "," "" = "" := by decide
  have a3 : stringsReplace1 (stringsReplace1 "-$50" "$" "0") "," "" = "-050" := by decide
  have b1 : ¬ ("01234.56" : String) = "" := by decide
  have b3 : ¬ ("-050" : String) = "" := by decide
  refine ⟨?_, ?_, ?_⟩
  · simp only [normalizeNumber, a1, b1, if_false]
    simp [isoLib, parseDecimal, parseUnsigned, readDigits, digitValue]
    norm_num
  · simp only [normalizeNumber, a2, if_true]
    simp [isoLib, parseDecimal, parseUnsigned, readDigits, digitValue]
  · simp only [normalizeNumber, a3, b3, if_false]
    simp [isoLib, parseDecimal, parseUnsigned, readDigits, digitValue]

/-! ## Header schema check -/

/-- C6, the failing input. The investment reader accepts a header without
the column `quantity`: whatever the data rows, the schema test passes and the
row loop runs with `quantityIndex = -1`; with no data row the reader returns
an empty list and no error, and with a data row the run panics on
`row[quantityIndex]`. -/
theorem C6_inv_header_without_quantity :
    "quantity" ∉ ["date", "description", "symbol", "price", "commission", "fee", "amount"]
    ∧ (∀ (lib : Lib) (dateFormat : String) (rows : List (List String)),
        Csv2Inv.readTransactions lib dateFormat
            (["date", "description", "symbol", "price", "commission", "fee", "amount"] :: rows) =
          Csv2Inv.readRows lib dateFormat
            { dateIndex := 0, descriptionIndex := 1, symbolIndex := 2, quantityIndex := -1,
              priceIndex := 3, commissionIndex := 4, feeIndex := 5, amountIndex := 6 }
            7 rows [])
    ∧ Csv2Inv.readTransactions isoLib "2006-01-02"
        [["date", "description", "symbol", "price", "commission", "fee", "amount"]] = .ok []
    ∧ Csv2Inv.readTransactions isoLib "2006-01-02"
        [["date", "description", "symbol", "price", "commission", "fee", "amount"],
         ["2024-01-15", "BUY ABC", "ABC", "5.00", "", "", "-50.00"]] = .panicked := by
  refine ⟨by decide, ?_, by decide, by decide⟩
  intro lib dateFormat rows
  simp [Csv2Inv.readTransactions, Csv2Inv.scanHeader, Csv2Inv.scanStep]

/-! ## Reading the transactions -/

theorem lastIndexFrom_not_mem (name : String) (header : List String) (i cur : Int)
    (h : name ∉ header) : lastIndexFrom name header i cur = cur := by
  induction header generalizing i cur with
  | nil => rfl
  | cons col rest ih =>
    have hcol : ¬ col = name := fun e => h (by simp [e])
    have hrest : name ∉ rest := fun e => h (by simp [e])
    simp only [lastIndexFrom, hcol, if_false]
    exact ih (i + 1) cur hrest

theorem lastIndexFrom_mem (name : String) (header : List String) (i cur : Int)
    (h : name ∈ header) :
    ∃ k : Nat, header[k]? = some name ∧ lastIndexFrom name header i cur = i + (k : Int) := by
  induction header generalizing i cur with
  | nil => simp at h
  | cons col rest ih =>
    by_cases hrest : name ∈ rest
    · obtain ⟨k, hk, hv⟩ := ih (i + 1) (if col = name then i else cur) hrest
      refine ⟨k + 1, by simpa using hk, ?_⟩
      simp only [lastIndexFrom, hv]
      push_cast
      ring
    · have hcol : col = name := by
        rcases List.mem_cons.1 h with e | e
        · exact e.symm
        · exact absurd e hrest
      refine ⟨0, by simp [hcol], ?_⟩
      simp only [lastIndexFrom, hcol, if_true]
      rw [lastIndexFrom_not_mem name rest (i + 1) i hrest]
      simp

theorem index_natCast (row : List String) (k : Nat) (v : String) (h : row[k]? = some v) :
    index row (k : Int) = .ok v := by
  simp [index, h]

theorem getElem?_of_same_length (header row : List String) (k : Nat) (name : String)
    (h : header[k]? = some name) (hlen : row.length = header.length) :
    ∃ v, row[k]? = some v := by
  have hk : k < header.length := by
    by_contra hge
    rw [List.getElem?_eq_none (by omega)] at h
    exact Option.noConfusion h
  exact ⟨row[k], List.getElem?_eq_getElem (by omega)⟩

theorem cash_scanStep_eq (ix : Csv2Bean.Indexes) (i : Int) (col : String) :
    Csv2Bean.scanStep ix i col =
      { dateIndex := if col = "date" then i else ix.dateIndex
        descriptionIndex := if col = "description" then i else ix.descriptionIndex
        amountIndex := if col = "amount" then i else ix.amountIndex
        symbolIndex := if col = "symbol" then i else ix.symbolIndex
        priceIndex := if col = "price" then i else ix.priceIndex
        commissionIndex := if col = "commission" then i else ix.commissionIndex
        feeIndex := if col = "fee" then i else ix.feeIndex } := by
  unfold Csv2Bean.scanStep
  split_ifs <;> simp_all

theorem cash_scanHeader_eq (header : List String) (i : Int) (ix : Csv2Bean.Indexes) :
    Csv2Bean.scanHeader header i ix =
      { dateIndex := lastIndexFrom "date" header i ix.dateIndex
        descriptionIndex := lastIndexFrom "description" header i ix.descriptionIndex
        amountIndex := lastIndexFrom "amount" header i ix.amountIndex
        symbolIndex := lastIndexFrom "symbol" header i ix.symbolIndex
        priceIndex := lastIndexFrom "price" header i ix.priceIndex
        commissionIndex := lastIndexFrom "commission" header i ix.commissionIndex
        feeIndex := lastIndexFrom "fee" header i ix.feeIndex } := by
  induction header generalizing i ix with
  | nil => rfl
  | cons col rest ih =>
    simp only [Csv2Bean.scanHeader, lastIndexFrom, ih, cash_scanStep_eq]

theorem cash_parseRow_spec (lib : Lib) (dateFormat : String) (c : Csv2Bean.Columns)
    (header row : List String) (hnamed : c.Named header) (hlen : row.length = header.length) :
    (∀ t, Csv2Bean.rowTransaction lib dateFormat c row = some t →
      Csv2Bean.parseRow lib dateFormat
        { dateIndex := c.date, descriptionIndex := c.description, amountIndex := c.amount,
          symbolIndex := c.symbol, priceIndex := c.price, commissionIndex := c.commission,
          feeIndex := c.fee } row = .ok t)
    ∧ (Csv2Bean.rowTransaction lib dateFormat c row = none →
      ∃ e, Csv2Bean.parseRow lib dateFormat
        { dateIndex := c.date, descriptionIndex := c.description, amountIndex := c.amount,
          symbolIndex := c.symbol, priceIndex := c.price, commissionIndex := c.commission,
          feeIndex := c.fee } row = .error e) := by
  obtain ⟨h1, h2, h3, h4, h5, h6, h7⟩ := hnamed
  obtain ⟨v1, e1⟩ := getElem?_of_same_length header row _ _ h1 hlen
  obtain ⟨v2, e2⟩ := getElem?_of_same_length header row _ _ h2 hlen
  obtain ⟨v3, e3⟩ := getElem?_of_same_length header row _ _ h3 hlen
  obtain ⟨v4, e4⟩ := getElem?_of_same_length header row _ _ h4 hlen
  obtain ⟨v5, e5⟩ := getElem?_of_same_length header row _ _ h5 hlen
  obtain ⟨v6, e6⟩ := getElem?_of_same_length header row _ _ h6 hlen
  obtain ⟨v7, e7⟩ := getElem?_of_same_length header row _ _ h7 hlen
  simp only [Csv2Bean.parseRow, Csv2Bean.rowTransaction, index_natCast _ _ _ e1,
    index_natCast _ _ _ e2, index_natCast _ _ _ e3, index_natCast _ _ _ e4,
    index_natCast _ _ _ e5, index_natCast _ _ _ e6, index_natCast _ _ _ e7,
    e1, e2, e3, e4, e5, e6, e7, Option.some_bind, Outcome.andThen]
  cases lib.timeParse dateFormat v1 <;> cases normalizeNumber lib v7 <;>
    cases normalizeNumber lib v4 <;> cases normalizeNumber lib v5 <;>
    cases normalizeNumber lib v6 <;> simp [orError, Outcome.andThen]

theorem cash_readRows_spec (lib : Lib) (dateFormat : String) (c : Csv2Bean.Columns)
    (header : List String) (hnamed : c.Named header) (rows : List (List String))
    (hwf : ∀ row ∈ rows, row.length = header.length) (acc : List Csv2Bean.Transaction) :
    ((∃ row ∈ rows, Csv2Bean.rowTransaction lib dateFormat c row = none) →
      ∃ e, Csv2Bean.readRows lib dateFormat
        { dateIndex := c.date, descriptionIndex := c.description, amountIndex := c.amount,
          symbolIndex := c.symbol, priceIndex := c.price, commissionIndex := c.commission,
          feeIndex := c.fee } header.length rows acc = .error e)
    ∧ ((∀ row ∈ rows, Csv2Bean.rowTransaction lib dateFormat c row ≠ none) →
      ∃ txs, Csv2Bean.readRows lib dateFormat
        { dateIndex := c.date, descriptionIndex := c.description, amountIndex := c.amount,
          symbolIndex := c.symbol, priceIndex := c.price, commissionIndex := c.commission,
          feeIndex := c.fee } header.length rows acc = .ok (acc ++ txs)
        ∧ List.Forall₂ (fun row t => Csv2Bean.rowTransaction lib dateFormat c row = some t)
            rows txs) := by
  induction rows generalizing acc with
  | nil =>
    constructor
    · rintro ⟨row, hrow, _⟩
      simp at hrow
    · intro _
      exact ⟨[], by simp [Csv2Bean.readRows], List.Forall₂.nil⟩
  | cons row rest ih =>
    have hlen : row.length = header.length := hwf row (by simp)
    have hrest : ∀ r ∈ rest, r.length = header.length := fun r hr => hwf r (by simp [hr])
    obtain ⟨hok, herr⟩ := cash_parseRow_spec lib dateFormat c header row hnamed hlen
    cases ht : Csv2Bean.rowTransaction lib dateFormat c row with
    | none =>
      obtain ⟨e, he⟩ := herr ht
      constructor
      · intro _
        exact ⟨e, by simp [Csv2Bean.readRows, hlen, he]⟩
      · intro hall
        exact absurd ht (hall row (by simp))
    | some t =>
      have hp := hok t ht
      obtain ⟨ihe, iho⟩ := ih hrest (acc ++ [t])
      constructor
      · rintro ⟨r, hr, hnone⟩
        rcases List.mem_cons.1 hr with e | e
        · subst e
          rw [ht] at hnone
          exact Option.noConfusion hnone
        · obtain ⟨e', he'⟩ := ihe ⟨r, e, hnone⟩
          exact ⟨e', by simp [Csv2Bean.readRows, hlen, hp, he']⟩
      · intro hall
        obtain ⟨txs, htxs, hf⟩ := iho (fun r hr => hall r (by simp [hr]))
        refine ⟨t :: txs, ?_, List.Forall₂.cons ht hf⟩
        simp [Csv2Bean.readRows, hlen, hp, htxs]

theorem cash_header_columns (header : List String)
    (hcols : ∀ name ∈ ["date", "description", "symbol", "price", "commission", "fee", "amount"],
      name ∈ header) :
    ∃ c : Csv2Bean.Columns, c.Named header
      ∧ Csv2Bean.scanHeader header 0 ⟨-1, -1, -1, -1, -1, -1, -1⟩ =
        { dateIndex := c.date, descriptionIndex := c.description, amountIndex := c.amount,
          symbolIndex := c.symbol, priceIndex := c.price, commissionIndex := c.commission,
          feeIndex := c.fee } := by
  obtain ⟨k1, n1, v1⟩ := lastIndexFrom_mem "date" header 0 (-1) (hcols _ (by simp))
  obtain ⟨k2, n2, v2⟩ := lastIndexFrom_mem "description" header 0 (-1) (hcols _ (by simp))
  obtain ⟨k3, n3, v3⟩ := lastIndexFrom_mem "symbol" header 0 (-1) (hcols _ (by simp))
  obtain ⟨k4, n4, v4⟩ := lastIndexFrom_mem "price" header 0 (-1) (hcols _ (by simp))
  obtain ⟨k5, n5, v5⟩ := lastIndexFrom_mem "commission" header 0 (-1) (hcols _ (by simp))
  obtain ⟨k6, n6, v6⟩ := lastIndexFrom_mem "fee" header 0 (-1) (hcols _ (by simp))
  obtain ⟨k7, n7, v7⟩ := lastIndexFrom_mem "amount" header 0 (-1) (hcols _ (by simp))
  refine ⟨⟨k1, k2, k3, k4, k5, k6, k7⟩, ⟨n1, n2, n3, n4, n5, n6, n7⟩, ?_⟩
  rw [cash_scanHeader_eq]
  simp only [v1, v2, v3, v4, v5, v6, v7, zero_add]

theorem cash_rowTransaction_none_iff (lib : Lib) (dateFormat : String) (c : Csv2Bean.Columns)
    (header row : List String) (hnamed : c.Named header) (hlen : row.length = header.length) :
    Csv2Bean.rowTransaction lib dateFormat c row = none ↔
      Csv2Bean.RowFails lib dateFormat c row := by
  obtain ⟨h1, h2, h3, h4, h5, h6, h7⟩ := hnamed
  obtain ⟨v1, e1⟩ := getElem?_of_same_length header row _ _ h1 hlen
  obtain ⟨v2, e2⟩ := getElem?_of_same_length header row _ _ h2 hlen
  obtain ⟨v3, e3⟩ := getElem?_of_same_length header row _ _ h3 hlen
  obtain ⟨v4, e4⟩ := getElem?_of_same_length header row _ _ h4 hlen
  obtain ⟨v5, e5⟩ := getElem?_of_same_length header row _ _ h5 hlen
  obtain ⟨v6, e6⟩ := getElem?_of_same_length header row _ _ h6 hlen
  obtain ⟨v7, e7⟩ := getElem?_of_same_length header row _ _ h7 hlen
  simp only [Csv2Bean.rowTransaction, Csv2Bean.RowFails, e1, e2, e3, e4, e5, e6, e7,
    Option.some_bind]
  cases lib.timeParse dateFormat v1 <;> cases normalizeNumber lib v7 <;>
    cases normalizeNumber lib v4 <;> cases normalizeNumber lib v5 <;>
    cases normalizeNumber lib v6 <;> simp

theorem inv_scanStep_eq (ix : Csv2Inv.Indexes) (i : Int) (col : String) :
    Csv2Inv.scanStep ix i col =
      { dateIndex := if col = "date" then i else ix.dateIndex
        descriptionIndex := if col = "description" then i else ix.descriptionIndex
        symbolIndex := if col = "symbol" then i else ix.symbolIndex
        quantityIndex := if col = "quantity" then i else ix.quantityIndex
        priceIndex := if col = "price" then i else ix.priceIndex
        commissionIndex := if col = "commission" then i else ix.commissionIndex
        feeIndex := if col = "fee" then i else ix.feeIndex
        amountIndex := if col = "amount" then i else ix.amountIndex } := by
  unfold Csv2Inv.scanStep
  split_ifs <;> simp_all

theorem inv_scanHeader_eq (header : List String) (i : Int) (ix : Csv2Inv.Indexes) :
    Csv2Inv.scanHeader header i ix =
      { dateIndex := lastIndexFrom "date" header i ix.dateIndex
        descriptionIndex := lastIndexFrom "description" header i ix.descriptionIndex
        symbolIndex := lastIndexFrom "symbol" header i ix.symbolIndex
        quantityIndex := lastIndexFrom "quantity" header i ix.quantityIndex
        priceIndex := lastIndexFrom "price" header i ix.priceIndex
        commissionIndex := lastIndexFrom "commission" header i ix.commissionIndex
        feeIndex := lastIndexFrom "fee" header i ix.feeIndex
        amountIndex := lastIndexFrom "amount" header i ix.amountIndex } := by
  induction header generalizing i ix with
  | nil => rfl
  | cons col rest ih =>
    simp only [Csv2Inv.scanHeader, lastIndexFrom, ih, inv_scanStep_eq]

theorem inv_parseRow_spec (lib : Lib) (dateFormat : String) (c : Csv2Inv.Columns)
    (header row : List String) (hnamed : c.Named header) (hlen : row.length = header.length) :
    (∀ t, Csv2Inv.rowTransaction lib dateFormat c row = some t →
      Csv2Inv.parseRow lib dateFormat
        { dateIndex := c.date, descriptionIndex := c.description, symbolIndex := c.symbol,
          quantityIndex := c.quantity, priceIndex := c.price, commissionIndex := c.commission,
          feeIndex := c.fee, amountIndex := c.amount } row = .ok t)
    ∧ (Csv2Inv.rowTransaction lib dateFormat c row = none →
      ∃ e, Csv2Inv.parseRow lib dateFormat
        { dateIndex := c.date, descriptionIndex := c.description, symbolIndex := c.symbol,
          quantityIndex := c.quantity, priceIndex := c.price, commissionIndex := c.commission,
          feeIndex := c.fee, amountIndex := c.amount } row = .error e) := by
  obtain ⟨h1, h2, h3, h4, h5, h6, h7, h8⟩ := hnamed
  obtain ⟨v1, e1⟩ := getElem?_of_same_length header row _ _ h1 hlen
  obtain ⟨v2, e2⟩ := getElem?_of_same_length header row _ _ h2 hlen
  obtain ⟨v3, e3⟩ := getElem?_of_same_length header row _ _ h3 hlen
  obtain ⟨v4, e4⟩ := getElem?_of_same_length header row _ _ h4 hlen
  obtain ⟨v5, e5⟩ := getElem?_of_same_length header row _ _ h5 hlen
  obtain ⟨v6, e6⟩ := getElem?_of_same_length header row _ _ h6 hlen
  obtain ⟨v7, e7⟩ := getElem?_of_same_length header row _ _ h7 hlen
  obtain ⟨v8, e8⟩ := getElem?_of_same_length header row _ _ h8 hlen
  simp only [Csv2Inv.parseRow, Csv2Inv.rowTransaction, index_natCast _ _ _ e1,
    index_natCast _ _ _ e2, index_natCast _ _ _ e3, index_natCast _ _ _ e4,
    index_natCast _ _ _ e5, index_natCast _ _ _ e6, index_natCast _ _ _ e7,
    index_natCast _ _ _ e8, e1, e2, e3, e4, e5, e6, e7, e8, Option.some_bind, Outcome.andThen]
  cases lib.timeParse dateFormat v1 <;> cases normalizeNumber lib v8 <;>
    cases normalizeNumber lib v4 <;> cases normalizeNumber lib v5 <;>
    cases normalizeNumber lib v6 <;> cases normalizeNumber lib v7 <;>
    simp [orError, Outcome.andThen]

theorem inv_rowTransaction_none_iff (lib : Lib) (dateFormat : String) (c : Csv2Inv.Columns)
    (header row : List String) (hnamed : c.Named header) (hlen : row.length = header.length) :
    Csv2Inv.rowTransaction lib dateFormat c row = none ↔
      Csv2Inv.RowFails lib dateFormat c row := by
  obtain ⟨h1, h2, h3, h4, h5, h6, h7, h8⟩ := hnamed
  obtain ⟨v1, e1⟩ := getElem?_of_same_length header row _ _ h1 hlen
  obtain ⟨v2, e2⟩ := getElem?_of_same_length header row _ _ h2 hlen
  obtain ⟨v3, e3⟩ := getElem?_of_same_length header row _ _ h3 hlen
  obtain ⟨v4, e4⟩ := getElem?_of_same_length header row _ _ h4 hlen
  obtain ⟨v5, e5⟩ := getElem?_of_same_length header row _ _ h5 hlen
  obtain ⟨v6, e6⟩ := getElem?_of_same_length header row _ _ h6 hlen
  obtain ⟨v7, e7⟩ := getElem?_of_same_length header row _ _ h7 hlen
  obtain ⟨v8, e8⟩ := getElem?_of_same_length header row _ _ h8 hlen
  simp only [Csv2Inv.rowTransaction, Csv2Inv.RowFails, e1, e2, e3, e4, e5, e6, e7, e8,
    Option.some_bind]
  cases lib.timeParse dateFormat v1 <;> cases normalizeNumber lib v8 <;>
    cases normalizeNumber lib v4 <;> cases normalizeNumber lib v5 <;>
    cases normalizeNumber lib v6 <;> cases normalizeNumber lib v7 <;> simp

theorem inv_readRows_spec (lib : Lib) (dateFormat : String) (c : Csv2Inv.Columns)
    (header : List String) (hnamed : c.Named header) (rows : List (List String))
    (hwf : ∀ row ∈ rows, row.length = header.length) (acc : List Csv2Inv.Transaction) :
    ((∃ row ∈ rows, Csv2Inv.rowTransaction lib dateFormat c row = none) →
      ∃ e, Csv2Inv.readRows lib dateFormat
        { dateIndex := c.date, descriptionIndex := c.description, symbolIndex := c.symbol,
          quantityIndex := c.quantity, priceIndex := c.price, commissionIndex := c.commission,
          feeIndex := c.fee, amountIndex := c.amount } header.length rows acc = .error e)
    ∧ ((∀ row ∈ rows, Csv2Inv.rowTransaction lib dateFormat c row ≠ none) →
      ∃ txs, Csv2Inv.readRows lib dateFormat
        { dateIndex := c.date, descriptionIndex := c.description, symbolIndex := c.symbol,
          quantityIndex := c.quantity, priceIndex := c.price, commissionIndex := c.commission,
          feeIndex := c.fee, amountIndex := c.amount } header.length rows acc = .ok (acc ++ txs)
        ∧ List.Forall₂ (fun row t => Csv2Inv.rowTransaction lib dateFormat c row = some t)
            rows txs) := by
  induction rows generalizing acc with
  | nil =>
    constructor
    · rintro ⟨row, hrow, _⟩
      simp at hrow
    · intro _
      exact ⟨[], by simp [Csv2Inv.readRows], List.Forall₂.nil⟩
  | cons row rest ih =>
    have hlen : row.length = header.length := hwf row (by simp)
    have hrest : ∀ r ∈ rest, r.length = header.length := fun r hr => hwf r (by simp [hr])
    obtain ⟨hok, herr⟩ := inv_parseRow_spec lib dateFormat c header row hnamed hlen
    cases ht : Csv2Inv.rowTransaction lib dateFormat c row with
    | none =>
      obtain ⟨e, he⟩ := herr ht
      constructor
      · intro _
        exact ⟨e, by simp [Csv2Inv.readRows, hlen, he]⟩
      · intro hall
        exact absurd ht (hall row (by simp))
    | some t =>
      have hp := hok t ht
      obtain ⟨ihe, iho⟩ := ih hrest (acc ++ [t])
      constructor
      · rintro ⟨r, hr, hnone⟩
        rcases List.mem_cons.1 hr with e | e
        · subst e
          rw [ht] at hnone
          exact Option.noConfusion hnone
        · obtain ⟨e', he'⟩ := ihe ⟨r, e, hnone⟩
          exact ⟨e', by simp [Csv2Inv.readRows, hlen, hp, he']⟩
      · intro hall
        obtain ⟨txs, htxs, hf⟩ := iho (fun r hr => hall r (by simp [hr]))
        refine ⟨t :: txs, ?_, List.Forall₂.cons ht hf⟩
        simp [Csv2Inv.readRows, hlen, hp, htxs]

theorem inv_header_columns (header : List String)
    (hcols : ∀ name ∈ ["date", "description", "symbol", "quantity", "price", "commission",
      "fee", "amount"], name ∈ header) :
    ∃ c : Csv2Inv.Columns, c.Named header
      ∧ Csv2Inv.scanHeader header 0 ⟨-1, -1, -1, -1, -1, -1, -1, -1⟩ =
        { dateIndex := c.date, descriptionIndex := c.description, symbolIndex := c.symbol,
          quantityIndex := c.quantity, priceIndex := c.price, commissionIndex := c.commission,
          feeIndex := c.fee, amountIndex := c.amount } := by
  obtain ⟨k1, n1, v1⟩ := lastIndexFrom_mem "date" header 0 (-1) (hcols _ (by simp))
  obtain ⟨k2, n2, v2⟩ := lastIndexFrom_mem "description" header 0 (-1) (hcols _ (by simp))
  obtain ⟨k3, n3, v3⟩ := lastIndexFrom_mem "symbol" header 0 (-1) (hcols _ (by simp))
  obtain ⟨k4, n4, v4⟩ := lastIndexFrom_mem "quantity" header 0 (-1) (hcols _ (by simp))
  obtain ⟨k5, n5, v5⟩ := lastIndexFrom_mem "price" header 0 (-1) (hcols _ (by simp))
  obtain ⟨k6, n6, v6⟩ := lastIndexFrom_mem "commission" header 0 (-1) (hcols _ (by simp))
  obtain ⟨k7, n7, v7⟩ := lastIndexFrom_mem "fee" header 0 (-1) (hcols _ (by simp))
  obtain ⟨k8, n8, v8⟩ := lastIndexFrom_mem "amount" header 0 (-1) (hcols _ (by simp))
  refine ⟨⟨k1, k2, k3, k4, k5, k6, k7, k8⟩, ⟨n1, n2, n3, n4, n5, n6, n7, n8⟩, ?_⟩
  rw [inv_scanHeader_eq]
  simp only [v1, v2, v3, v4, v5, v6, v7, v8, zero_add]

theorem cash_missing_column_rejected (lib : Lib) (dateFormat : String)
    (header : List String) (rows : List (List String)) (name : String)
    (hname : name ∈ ["date", "description", "symbol", "price", "commission", "fee", "amount"])
    (hmiss : name ∉ header) :
    Csv2Bean.readTransactions lib dateFormat (header :: rows) = .error .schema := by
  simp only [Csv2Bean.readTransactions, cash_scanHeader_eq]
  simp only [List.mem_cons, List.mem_singleton, List.not_mem_nil, or_false] at hname
  rcases hname with h | h | h | h | h | h | h <;> subst h <;>
    simp [lastIndexFrom_not_mem _ header 0 (-1) hmiss]

theorem inv_missing_column_rejected (lib : Lib) (dateFormat : String)
    (header : List String) (rows : List (List String)) (name : String)
    (hname : name ∈ ["date", "description", "symbol", "price", "commission", "fee", "amount"])
    (hmiss : name ∉ header) :
    Csv2Inv.readTransactions lib dateFormat (header :: rows) = .error .schema := by
  simp only [Csv2Inv.readTransactions, inv_scanHeader_eq]
  simp only [List.mem_cons, List.mem_singleton, List.not_mem_nil, or_false] at hname
  rcases hname with h | h | h | h | h | h | h <;> subst h <;>
    simp [lastIndexFrom_not_mem _ header 0 (-1) hmiss]

/-- Reading is all-or-nothing on field errors when every column name is in
the header.  For a header that carries every column name the reader looks up
and data rows of the header's field count, there is one column per field, each
carrying the field's name in the header, such that: if some row has a date
that does not parse or a numeric field that fails normalisation, the reader
returns an error and no list; if no row fails, it returns a list with exactly
one transaction per row, in row order, each built from the fields of its row
in those columns.  Cash reader first; investment reader second, under the
assumption that `quantity` is in the header, which its own header test does
not check. -/
theorem read_all_or_nothing_all_columns (lib : Lib) (dateFormat : String) (header : List String)
    (rows : List (List String)) (hwf : ∀ row ∈ rows, row.length = header.length) :
    ((∀ name ∈ ["date", "description", "symbol", "price", "commission", "fee", "amount"],
        name ∈ header) →
      ∃ c : Csv2Bean.Columns, c.Named header
        ∧ ((∃ row ∈ rows, Csv2Bean.RowFails lib dateFormat c row) →
            ∃ e, Csv2Bean.readTransactions lib dateFormat (header :: rows) = .error e)
        ∧ ((∀ row ∈ rows, ¬ Csv2Bean.RowFails lib dateFormat c row) →
            ∃ txs, Csv2Bean.readTransactions lib dateFormat (header :: rows) = .ok txs
              ∧ List.Forall₂
                  (fun row t => Csv2Bean.rowTransaction lib dateFormat c row = some t)
                  rows txs))
    ∧ ((∀ name ∈ ["date", "description", "symbol", "quantity", "price", "commission", "fee",
          "amount"], name ∈ header) →
      ∃ c : Csv2Inv.Columns, c.Named header
        ∧ ((∃ row ∈ rows, Csv2Inv.RowFails lib dateFormat c row) →
            ∃ e, Csv2Inv.readTransactions lib dateFormat (header :: rows) = .error e)
        ∧ ((∀ row ∈ rows, ¬ Csv2Inv.RowFails lib dateFormat c row) →
            ∃ txs, Csv2Inv.readTransactions lib dateFormat (header :: rows) = .ok txs
              ∧ List.Forall₂
                  (fun row t => Csv2Inv.rowTransaction lib dateFormat c row = some t)
                  rows txs)) := by
  constructor
  · intro hcols
    obtain ⟨c, hnamed, hscan⟩ := cash_header_columns header hcols
    obtain ⟨herr, hok⟩ := cash_readRows_spec lib dateFormat c header hnamed rows hwf []
    have hcheck : ¬ ((c.date : Int) = -1 ∨ (c.description : Int) = -1 ∨ (c.amount : Int) = -1
        ∨ (c.symbol : Int) = -1 ∨ (c.price : Int) = -1 ∨ (c.commission : Int) = -1
        ∨ (c.fee : Int) = -1) := by omega
    have hread : Csv2Bean.readTransactions lib dateFormat (header :: rows) =
        Csv2Bean.readRows lib dateFormat
          { dateIndex := c.date, descriptionIndex := c.description, amountIndex := c.amount,
            symbolIndex := c.symbol, priceIndex := c.price, commissionIndex := c.commission,
            feeIndex := c.fee } header.length rows [] := by
      simp only [Csv2Bean.readTransactions, hscan, hcheck, if_false]
    refine ⟨c, hnamed, ?_, ?_⟩
    · rintro ⟨row, hrow, hfail⟩
      rw [hread]
      exact herr ⟨row, hrow,
        (cash_rowTransaction_none_iff lib dateFormat c header row hnamed (hwf row hrow)).2 hfail⟩
    · intro hall
      rw [hread]
      obtain ⟨txs, htxs, hf⟩ := hok (fun row hrow hnone => hall row hrow
        ((cash_rowTransaction_none_iff lib dateFormat c header row hnamed (hwf row hrow)).1 hnone))
      exact ⟨txs, by simpa using htxs, hf⟩
  · intro hcols
    obtain ⟨c, hnamed, hscan⟩ := inv_header_columns header hcols
    obtain ⟨herr, hok⟩ := inv_readRows_spec lib dateFormat c header hnamed rows hwf []
    have hcheck : ¬ ((c.date : Int) = -1 ∨ (c.description : Int) = -1 ∨ (c.amount : Int) = -1
        ∨ (c.symbol : Int) = -1 ∨ (c.price : Int) = -1 ∨ (c.commission : Int) = -1
        ∨ (c.fee : Int) = -1) := by omega
    have hread : Csv2Inv.readTransactions lib dateFormat (header :: rows) =
        Csv2Inv.readRows lib dateFormat
          { dateIndex := c.date, descriptionIndex := c.description, symbolIndex := c.symbol,
            quantityIndex := c.quantity, priceIndex := c.price,
            commissionIndex := c.commission, feeIndex := c.fee, amountIndex := c.amount }
          header.length rows [] := by
      simp only [Csv2Inv.readTransactions, hscan, hcheck, if_false]
    refine ⟨c, hnamed, ?_, ?_⟩
    · rintro ⟨row, hrow, hfail⟩
      rw [hread]
      exact herr ⟨row, hrow,
        (inv_rowTransaction_none_iff lib dateFormat c header row hnamed (hwf row hrow)).2 hfail⟩
    · intro hall
      rw [hread]
      obtain ⟨txs, htxs, hf⟩ := hok (fun row hrow hnone => hall row hrow
        ((inv_rowTransaction_none_iff lib dateFormat c header row hnamed (hwf row hrow)).1 hnone))
      exact ⟨txs, by simpa using htxs, hf⟩

/-- C9, the failing input. The header `date, description, symbol, price,
commission, fee, amount` passes the header test of the investment reader.
With a data row in which every field parses, the run panics on
`row[quantityIndex]` instead of returning one transaction per row; with a data
row whose price does not parse, the run panics instead of returning an error;
only a row whose date or amount does not parse, both read before the
quantity, gives the error.  The cash reader on the same records returns the
price error. -/
theorem C9_inv_reader_panics_after_header_test :
    Csv2Inv.readTransactions isoLib "2006-01-02"
        [["date", "description", "symbol", "price", "commission", "fee", "amount"],
         ["2024-01-15", "DIVIDEND ABC", "ABC", "", "", "", "1.25"]] = .panicked
    ∧ Csv2Inv.readTransactions isoLib "2006-01-02"
        [["date", "description", "symbol", "price", "commission", "fee", "amount"],
         ["2024-01-15", "DIVIDEND ABC", "ABC", "abc", "", "", "1.25"]] = .panicked
    ∧ Csv2Inv.readTransactions isoLib "2006-01-02"
        [["date", "description", "symbol", "price", "commission", "fee", "amount"],
         ["2024-01-15", "DIVIDEND ABC", "ABC", "", "", "", "1.25"],
         ["2024-02-30", "DIVIDEND ABC", "ABC", "", "", "", "1.25"]] = .panicked
    ∧ Csv2Inv.readTransactions isoLib "2006-01-02"
        [["date", "description", "symbol", "price", "commission", "fee", "amount"],
         ["2024-02-30", "DIVIDEND ABC", "ABC", "", "", "", "1.25"]] = .error .date
    ∧ Csv2Bean.readTransactions isoLib "2006-01-02"
        [["date", "description", "symbol", "price", "commission", "fee", "amount"],
         ["2024-01-15", "DIVIDEND ABC", "ABC", "abc", "", "", "1.25"]] = .error .price
    ∧ (∃ t : Csv2Bean.Transaction,
        Csv2Bean.readTransactions isoLib "2006-01-02"
          [["date", "description", "symbol", "price", "commission", "fee", "amount"],
           ["2024-01-15", "DIVIDEND ABC", "ABC", "", "", "", "1.25"]] = .ok [t]
        ∧ t.description = "DIVIDEND ABC" ∧ t.date = ⟨2024, 1, 15⟩) := by
  refine ⟨by decide, by decide, by decide, by decide, by decide, ?_⟩
  exact ⟨_, rfl, rfl, rfl⟩

/-! ## Rules with an empty contains-string -/

theorem isSubstring_empty (sub d : String) (h : sub = "") : IsSubstring sub d := by
  subst h
  exact ⟨[], d.data, by simp⟩

theorem exists_first_index (p : Nat → Prop) (i : Nat) (h : p i) :
    ∃ k, k ≤ i ∧ p k ∧ ∀ j, j < k → ¬ p j := by
  classical
  exact ⟨Nat.find ⟨i, h⟩, Nat.find_min' _ h, Nat.find_spec _, fun j hj => Nat.find_min _ hj⟩

theorem cash_first_match_le (d : String) (rules : List Csv2Bean.Match) (i : Nat)
    (hi : i < rules.length) (hmatch : IsSubstring rules[i].contains d) :
    ∃ (k : Nat) (hk : k < rules.length), k ≤ i ∧ IsSubstring rules[k].contains d
      ∧ ∀ (j : Nat) (hj : j < rules.length), j < k → ¬ IsSubstring rules[j].contains d := by
  obtain ⟨k, hle, ⟨hk, hm⟩, hmin⟩ :=
    exists_first_index (fun n => ∃ h : n < rules.length, IsSubstring rules[n].contains d) i
      ⟨hi, hmatch⟩
  exact ⟨k, hk, hle, hm, fun j hj hjk hmj => hmin j hjk ⟨hj, hmj⟩⟩

theorem inv_first_match_le (d : String) (rules : List Csv2Inv.Match) (i : Nat)
    (hi : i < rules.length) (hmatch : IsSubstring rules[i].contains d) :
    ∃ (k : Nat) (hk : k < rules.length), k ≤ i ∧ IsSubstring rules[k].contains d
      ∧ ∀ (j : Nat) (hj : j < rules.length), j < k → ¬ IsSubstring rules[j].contains d := by
  obtain ⟨k, hle, ⟨hk, hm⟩, hmin⟩ :=
    exists_first_index (fun n => ∃ h : n < rules.length, IsSubstring rules[n].contains d) i
      ⟨hi, hmatch⟩
  exact ⟨k, hk, hle, hm, fun j hj hjk hmj => hmin j hjk ⟨hj, hmj⟩⟩

/-- C11. A rule whose contains-string is empty matches every description.
In both pipelines, when the rule at position `i` has an empty contains-string,
the rule loop selects a rule at some position `k ≤ i` (the earliest rule that
matches), whatever the values of the variables before the loop: no rule after
position `i` is selected and the unmatched default is not used.  In the
investment pipeline, when no rule before `i` matches and rule `i` has trade
type `BUY` or `SELL`, the entry of every transaction is the trade entry of
rule `i`. -/
theorem C11_empty_contains_matches_all (d : String) (cashRules : List Csv2Bean.Match)
    (invRules : List Csv2Inv.Match) (i : Nat) (currency defaultAccount : String)
    (reverse : Bool) (u : Csv2Inv.Transaction) :
    (∀ (hi : i < cashRules.length), cashRules[i].contains = "" →
      stringsContains d cashRules[i].contains = true
      ∧ ∃ (k : Nat) (hk : k < cashRules.length), k ≤ i
          ∧ IsSubstring cashRules[k].contains d
          ∧ (∀ (j : Nat) (hj : j < cashRules.length), j < k →
              ¬ IsSubstring cashRules[j].contains d)
          ∧ ∀ init : String,
              Csv2Bean.findAccount2 d cashRules init = cashRules[k].account2)
    ∧ (∀ (hi : i < invRules.length), invRules[i].contains = "" →
      stringsContains d invRules[i].contains = true
      ∧ ∃ (k : Nat) (hk : k < invRules.length), k ≤ i
          ∧ IsSubstring invRules[k].contains d
          ∧ (∀ (j : Nat) (hj : j < invRules.length), j < k →
              ¬ IsSubstring invRules[j].contains d)
          ∧ ∀ init : Csv2Inv.Resolved,
              Csv2Inv.findMatch d invRules init =
                { fromAccount := invRules[k].fromAccount, toAccount := invRules[k].toAccount,
                  trade := invRules[k].trade })
    ∧ (∀ (hi : i < invRules.length), invRules[i].contains = "" →
      (∀ (j : Nat) (hj : j < invRules.length), j < i →
        ¬ IsSubstring invRules[j].contains u.description) →
      (invRules[i].trade = "BUY" →
        Csv2Inv.entryOf invRules currency defaultAccount reverse u =
          { date := u.date
            narration := u.description
            postings :=
              [Posting.plain invRules[i].fromAccount (-(u.price * u.quantity)) currency,
               Posting.lot (invRules[i].toAccount ++ u.symbol) u.quantity u.symbol u.price
                 currency] })
      ∧ (invRules[i].trade = "SELL" →
        Csv2Inv.entryOf invRules currency defaultAccount reverse u =
          { date := u.date
            narration := u.description
            postings :=
              [Posting.lot (invRules[i].fromAccount ++ u.symbol) u.quantity u.symbol u.price
                 currency,
               Posting.plain invRules[i].toAccount (-(u.price * u.quantity)) currency] })) := by
  refine ⟨?_, ?_, ?_⟩
  · intro hi hempty
    have hm : IsSubstring cashRules[i].contains d := isSubstring_empty _ d hempty
    obtain ⟨k, hk, hle, hmk, hfirst⟩ := cash_first_match_le d cashRules i hi hm
    exact ⟨(stringsContains_iff _ _).2 hm, k, hk, hle, hmk, hfirst,
      fun init => findAccount2_first d cashRules init k hk hmk hfirst⟩
  · intro hi hempty
    have hm : IsSubstring invRules[i].contains d := isSubstring_empty _ d hempty
    obtain ⟨k, hk, hle, hmk, hfirst⟩ := inv_first_match_le d invRules i hi hm
    exact ⟨(stringsContains_iff _ _).2 hm, k, hk, hle, hmk, hfirst,
      fun init => findMatch_first d invRules init k hk hmk hfirst⟩
  · intro hi hempty hfirst
    have hm : IsSubstring invRules[i].contains u.description :=
      isSubstring_empty _ u.description hempty
    have hr := findMatch_first u.description invRules
      { fromAccount := defaultAccount, toAccount := "Expenses:Unassigned", trade := "" }
      i hi hm hfirst
    have hs : ¬ ("SELL" : String) = "BUY" := by decide
    constructor
    · intro hbuy
      simp only [Csv2Inv.entryOf, hr, Csv2Inv.entryFor, hbuy, if_true]
    · intro hsell
      simp only [Csv2Inv.entryOf, hr, Csv2Inv.entryFor, hsell, hs, if_true, if_false]

/-- Witness of C11.  Cash: in the list COFFEE, empty, SHOP the rule selected
for `BOOK SHOP` is at position 1 or earlier, so the SHOP rule at position 2 is
not selected.  Investment: under a single rule with an empty contains-string
and trade type `BUY`, a transfer of 25 with no symbol, price or quantity is
written as a purchase of 0 units. -/
theorem C11_empty_contains_matches_all_witness :
    (∃ (k : Nat) (hk : k < [(⟨"Expenses:Dining", "COFFEE"⟩ : Csv2Bean.Match),
          ⟨"Expenses:Other", ""⟩, ⟨"Expenses:Shopping", "SHOP"⟩].length), k ≤ 1
        ∧ ∀ init : String,
            Csv2Bean.findAccount2 "BOOK SHOP"
              [⟨"Expenses:Dining", "COFFEE"⟩, ⟨"Expenses:Other", ""⟩,
               ⟨"Expenses:Shopping", "SHOP"⟩] init =
            ([(⟨"Expenses:Dining", "COFFEE"⟩ : Csv2Bean.Match), ⟨"Expenses:Other", ""⟩,
              ⟨"Expenses:Shopping", "SHOP"⟩].get ⟨k, hk⟩).account2)
    ∧ Csv2Inv.entryOf [⟨"Assets:Cash", "Assets:Investments:", "BUY", ""⟩]
        "USD" "Assets:Default" false ⟨⟨2024, 1, 15⟩, "TRANSFER", "", 0, 0, 0, 0, 25⟩ =
      { date := ⟨2024, 1, 15⟩
        narration := "TRANSFER"
        postings := [Posting.plain "Assets:Cash" (-(0 * 0)) "USD",
                     Posting.lot ("Assets:Investments:" ++ "") 0 "" 0 "USD"] } := by
  constructor
  · obtain ⟨_, k, hk, hle, _, _, hsel⟩ :=
      (C11_empty_contains_matches_all "BOOK SHOP"
        [⟨"Expenses:Dining", "COFFEE"⟩, ⟨"Expenses:Other", ""⟩, ⟨"Expenses:Shopping", "SHOP"⟩]
        [] 1 "USD" "Assets:Default" false
        ⟨⟨2024, 1, 15⟩, "BOOK SHOP", "", 0, 0, 0, 0, 25⟩).1 (by decide) rfl
    exact ⟨k, hk, hle, hsel⟩
  · exact ((C11_empty_contains_matches_all "TRANSFER" []
        [⟨"Assets:Cash", "Assets:Investments:", "BUY", ""⟩] 0 "USD" "Assets:Default" false
        ⟨⟨2024, 1, 15⟩, "TRANSFER", "", 0, 0, 0, 0, 25⟩).2.2 (by decide) rfl
      (fun j _ hj => absurd hj (Nat.not_lt_zero j))).1 rfl
